import Mathlib
/-!
Verification of the CAN analyzer's large-dataset message-table subsystem.

The definitions below are a shallow embedding of the Python sources:
- src/can_analyzer/ui/message_table.py   (sliding window state machine)
- src/can_analyzer/utils/message_filter.py (MessageFilter.matches)
- src/can_analyzer/utils/signal_decoder.py (SignalDecoder.decode_message)
- src/can_analyzer/utils/dbc_manager.py    (DBCDatabase wrappers)
- src/can_analyzer/ui/virtual_scroll_worker.py (row materialization)
- src/can_analyzer/ui/filter_dialog.py     (parse_can_ids)

Modelling conventions: Python ints are Int (Nat where the quantity is
intrinsically non-negative, e.g. Qt rowCount and scrollbar values);
Python float arithmetic on scroll fractions is modelled as exact
arithmetic, with int(x) for non-negative x modelled as floor, so that
int(a / b * c) becomes the natural-number expression a * c / b;
Python str is modelled as List Char; exceptions are modelled with
Option / Except.
-/
namespace CanAnalyzer
/-- Source constant _sliding_window_threshold = 10000 (message_table.py line 42). -/
def slidingThreshold : Nat := 10000
/-- Source constant _window_size = 15000 (message_table.py line 43). -/
def windowSize : Nat := 15000
/-- Source constant _append_batch_size = 2000 (message_table.py line 45). -/
def appendBatchSize : Nat := 2000
/-- The mutable sliding-window fields of MessageTableWidget:
_window_start_index, the Qt table's rowCount(), the vertical scrollbar's
value(), and the _is_loading_more guard flag. window_start is kept as Int
because Python integers are signed; non-negativity is proved, not assumed. -/
structure SlidingWindow where
  windowStart : Int
  rowCount : Nat
  scrollValue : Nat
  isLoadingMore : Bool
deriving DecidableEq
/-- _init_sliding_window (message_table.py lines 768-812): window start 0,
rowCount = initial_window_end - 0 = min(_window_size, total_messages). -/
def initSlidingWindow (n : Nat) : SlidingWindow :=
  ⟨0, min windowSize n, 0, false⟩
/-- The row the user is currently viewing, estimated in the slide functions
(message_table.py lines 872-877 and 962-967):
int(scroll_value / scroll_max * rowCount) when scroll_max > 0, else 0. -/
def currentViewingRow (s : SlidingWindow) (oldMax : Nat) : Nat :=
  if 0 < oldMax then s.scrollValue * s.rowCount / oldMax else 0
/-- Clamp of the scroll-anchor row done after a slide
(message_table.py lines 915-924 and 1013-1022): if the anchor fell before
the new window use the 25% row, if at/after its end use the 75% row. -/
def clampViewingRow (newViewingRowRaw : Int) (newRowCount : Nat) : Nat :=
  if newViewingRowRaw < 0 then newRowCount / 4
  else if (newRowCount : Int) ≤ newViewingRowRaw then newRowCount * 3 / 4
  else newViewingRowRaw.toNat
/-- Scrollbar repositioning after a slide (message_table.py lines 926-931 and
1024-1029): setValue(int(new_viewing_row / new_row_count * new_scroll_max))
when the new maximum and row count are positive, otherwise untouched.
Qt's setValue clamps into [0, maximum]. -/
def repositionScroll (s : SlidingWindow) (newViewingRow newRowCount newMax : Nat) : Nat :=
  if 0 < newMax ∧ 0 < newRowCount
  then min (newViewingRow * newMax / newRowCount) newMax
  else s.scrollValue
/-- Number of rows appended by a forward slide (message_table.py line 865):
min(_append_batch_size, total_messages - current_window_end). -/
def rowsToAppend (n : Nat) (s : SlidingWindow) : Nat :=
  min appendBatchSize ((n : Int) - (s.windowStart + s.rowCount)).toNat
/-- Number of rows prepended by a backward slide (message_table.py line 955):
min(_append_batch_size, window_start_index). -/
def rowsToPrepend (s : SlidingWindow) : Nat :=
  min appendBatchSize s.windowStart.toNat
/-- Body of _slide_window_forward once both early returns have been passed
(message_table.py lines 863-935). Removing k rows from the top then
appending k leaves rowCount = (rowCount - k) + k, with Qt ignoring
removals past empty (Nat subtraction). -/
def slideForwardCore (n : Nat) (s : SlidingWindow) (oldMax newMax : Nat) : SlidingWindow :=
  let k := rowsToAppend n s
  let viewingMessageIndex : Int := s.windowStart + currentViewingRow s oldMax
  let newWindowStart : Int := s.windowStart + k
  let newRowCount : Nat := (s.rowCount - k) + k
  let newViewingRow : Nat := clampViewingRow (viewingMessageIndex - newWindowStart) newRowCount
  ⟨newWindowStart, newRowCount, repositionScroll s newViewingRow newRowCount newMax, false⟩
/-- _slide_window_forward (message_table.py lines 844-935). n is
len(_pending_messages); oldMax / newMax are the scrollbar maxima read
before and after the table rows are replaced (external Qt state).
The re-entrant _on_scroll event triggered by setValue is a no-op by the
_is_loading_more guard, so it is not modelled inside the body. -/
def slideWindowForward (n : Nat) (s : SlidingWindow) (oldMax newMax : Nat) : SlidingWindow :=
  if s.isLoadingMore then s
  else if (n : Int) ≤ s.windowStart + s.rowCount then s
  else slideForwardCore n s oldMax newMax
/-- Body of _slide_window_backward once both early returns have been passed
(message_table.py lines 952-1033): k rows removed from the bottom, k
prepended at the top, window start decreased by k. -/
def slideBackwardCore (s : SlidingWindow) (oldMax newMax : Nat) : SlidingWindow :=
  let k := rowsToPrepend s
  let viewingMessageIndex : Int := s.windowStart + currentViewingRow s oldMax
  let newWindowStart : Int := s.windowStart - k
  let newRowCount : Nat := (s.rowCount - k) + k
  let newViewingRow : Nat := clampViewingRow (viewingMessageIndex - newWindowStart) newRowCount
  ⟨newWindowStart, newRowCount, repositionScroll s newViewingRow newRowCount newMax, false⟩
/-- _slide_window_backward (message_table.py lines 937-1033). The display
count is only printed by the source, so the body does not depend on it. -/
def slideWindowBackward (n : Nat) (s : SlidingWindow) (oldMax newMax : Nat) : SlidingWindow :=
  if s.isLoadingMore then s
  else if s.windowStart ≤ 0 then s
  else slideBackwardCore s oldMax newMax
/-- _check_bottom_and_load_more (message_table.py lines 814-842): ignore when
a slide is in flight, when the table is empty or the scrollbar maximum is 0;
slide backward when scroll fraction ≤ 0.05, forward when ≥ 0.95.
value / max ≤ 1/20 is written 20 * value ≤ max, and ≥ 19/20 as
19 * max ≤ 20 * value. -/
def checkBottomAndLoadMore (n : Nat) (s : SlidingWindow) (oldMax newMax : Nat) : SlidingWindow :=
  if s.isLoadingMore then s
  else if s.rowCount = 0 then s
  else if oldMax = 0 then s
  else if 20 * s.scrollValue ≤ oldMax then slideWindowBackward n s oldMax newMax
  else if 19 * oldMax ≤ 20 * s.scrollValue then slideWindowForward n s oldMax newMax
  else s
/-- One user-driven slide, with the scrollbar maxima it observes. -/
inductive SlideOp where
  | forward (oldMax newMax : Nat)
  | backward (oldMax newMax : Nat)
def applySlideOp (n : Nat) (s : SlidingWindow) : SlideOp → SlidingWindow
  | .forward a b => slideWindowForward n s a b
  | .backward a b => slideWindowBackward n s a b
/-- A whole interaction: a sequence of slides applied in order. -/
def runSlides (n : Nat) (s : SlidingWindow) (ops : List SlideOp) : SlidingWindow :=
  ops.foldl (applySlideOp n) s
/-- The window invariant of the spec, over a display sequence of length n,
together with the auxiliary fact that the materialized row count stays at
its initial value min(_window_size, n). -/
def WindowInv (n : Nat) (s : SlidingWindow) : Prop :=
  0 ≤ s.windowStart ∧ s.windowStart + s.rowCount ≤ n ∧ s.rowCount = min windowSize n
/-- One decoded CAN frame (parsers/asc_parser.py, class CANMessage).
timestamp is a Python float, modelled as a rational; dlc is derived as
len(data). -/
structure CANMessage where
  timestamp : ℚ
  can_id : Nat
  direction : String
  data : List Nat
  channel : Nat
deriving DecidableEq
/-- dlc = len(data) (asc_parser.py line 22). -/
def CANMessage.dlc (m : CANMessage) : Nat := m.data.length
/-- The filter configuration (utils/message_filter.py, class MessageFilter). -/
structure MessageFilter where
  filter_by_can_id : Bool
  can_id_list : Finset Nat
  can_id_mode : String
  filter_by_direction : Bool
  show_rx : Bool
  show_tx : Bool
  filter_by_time : Bool
  time_start : ℚ
  time_end : ℚ
  filter_by_dlc : Bool
  dlc_min : Nat
  dlc_max : Nat
deriving DecidableEq
/-- MessageFilter.matches (message_filter.py lines 34-71), with each of the
source's early `return False` guards folded into one if each. -/
def MessageFilter.matches (f : MessageFilter) (m : CANMessage) : Bool :=
  if f.filter_by_can_id ∧ ((f.can_id_mode = "include" ∧ m.can_id ∉ f.can_id_list) ∨
      (f.can_id_mode ≠ "include" ∧ m.can_id ∈ f.can_id_list)) then false
  else if f.filter_by_direction ∧ ((m.direction = "Rx" ∧ ¬f.show_rx) ∨
      (m.direction = "Tx" ∧ ¬f.show_tx)) then false
  else if f.filter_by_time ∧ (m.timestamp < f.time_start ∨ f.time_end < m.timestamp) then false
  else if f.filter_by_dlc ∧ (m.dlc < f.dlc_min ∨ f.dlc_max < m.dlc) then false
  else true
/-- The spec's reading of the filter contract: a conjunction over the four
individually enabled sub-criteria, each disabled criterion passing, the time
and length ranges inclusive at both ends. -/
def passesEnabledCriteria (f : MessageFilter) (m : CANMessage) : Prop :=
  (f.filter_by_can_id = true →
    (if f.can_id_mode = "include" then m.can_id ∈ f.can_id_list else m.can_id ∉ f.can_id_list)) ∧
  (f.filter_by_direction = true →
    ((m.direction = "Rx" → f.show_rx = true) ∧ (m.direction = "Tx" → f.show_tx = true))) ∧
  (f.filter_by_time = true → (f.time_start ≤ m.timestamp ∧ m.timestamp ≤ f.time_end)) ∧
  (f.filter_by_dlc = true → (f.dlc_min ≤ m.dlc ∧ m.dlc ≤ f.dlc_max))
/-- The filtered list _pending_messages computed by set_messages
(message_table.py lines 144-148). -/
def pendingMessages (msgs : List CANMessage) (f : Option MessageFilter) : List CANMessage :=
  match f with
  | some flt => msgs.filter (fun m => flt.matches m)
  | none => msgs
/-- The two loading strategies chosen by set_messages. -/
inductive LoadStrategy where
  | fullBatch
  | slidingWindow
deriving DecidableEq
/-- Strategy choice of set_messages (message_table.py lines 150-162):
sliding window iff total_to_display >= _sliding_window_threshold. -/
def selectStrategy (displayCount : Nat) : LoadStrategy :=
  if slidingThreshold ≤ displayCount then .slidingWindow else .fullBatch
/-- Position Translator, logical index to scrollbar fraction
(scroll_to_message, message_table.py line 509):
scroll_percentage = pending_index / max(1, total_messages - 1). -/
def scrollbarFraction (i n : Nat) : ℚ :=
  (i : ℚ) / ((max 1 (n - 1) : Nat) : ℚ)
/-- Position Translator, scrollbar fraction to logical index
(_update_virtual_window, message_table.py lines 684-688):
center_index = int(scroll_percentage * total_messages); int() on a
non-negative float is floor. -/
def logicalIndex (f : ℚ) (n : Nat) : Int :=
  Int.floor (f * n)
/-- What the forward slide does to the scrollbar: writing v for the logical
index viewed before the slide (window start + viewing row) and newStart for
the new window start, if v still lies in the new window the scrollbar value
becomes the fraction (v - newStart) / rowCount of the new maximum, and if v
was evicted past the new start it is clamped to the 25% row position. -/
def anchorSpecForward (n : Nat) (s : SlidingWindow) (oldMax newMax : Nat) : Prop :=
  ((s.windowStart + rowsToAppend n s : Int) ≤ s.windowStart + currentViewingRow s oldMax →
    (slideWindowForward n s oldMax newMax).scrollValue
      = ((s.windowStart + currentViewingRow s oldMax)
          - (s.windowStart + rowsToAppend n s)).toNat * newMax / s.rowCount) ∧
  ((s.windowStart + currentViewingRow s oldMax : Int) < s.windowStart + rowsToAppend n s →
    (slideWindowForward n s oldMax newMax).scrollValue
      = s.rowCount / 4 * newMax / s.rowCount)
/-- What the backward slide does to the scrollbar: if the previously viewed
logical index v still lies in the new window the scrollbar value becomes the
fraction (v - newStart) / rowCount of the new maximum, and if v was evicted
past the new end it is clamped to the 75% row position. -/
def anchorSpecBackward (n : Nat) (s : SlidingWindow) (oldMax newMax : Nat) : Prop :=
  (((s.windowStart + currentViewingRow s oldMax)
      - (s.windowStart - rowsToPrepend s) : Int) < s.rowCount →
    (slideWindowBackward n s oldMax newMax).scrollValue
      = ((s.windowStart + currentViewingRow s oldMax)
          - (s.windowStart - rowsToPrepend s)).toNat * newMax / s.rowCount) ∧
  ((s.rowCount : Int) ≤ (s.windowStart + currentViewingRow s oldMax)
      - (s.windowStart - rowsToPrepend s) →
    (slideWindowBackward n s oldMax newMax).scrollValue
      = s.rowCount * 3 / 4 * newMax / s.rowCount)
/-- One signal definition of a DBC message (name and unit are all the
decoder reads from it, signal_decoder.py lines 128-134). -/
structure SignalDef where
  name : String
  unit : String
deriving DecidableEq
/-- One message definition of a DBC database (name and signals are all the
decoder reads from it). -/
structure MsgDef where
  name : String
  signals : List SignalDef
deriving DecidableEq
/-- The cantools database object stored in DBCDatabase.db: frame-id lookup
(none models the KeyError for an unknown arbitration ID) and per-message
decode, which may raise (modelled as Except.error). -/
structure RawDB where
  getMessageByFrameId : Nat → Option MsgDef
  decode : MsgDef → List Nat → Except String (List (String × ℚ))
/-- DBCDatabase (dbc_manager.py): the _loaded flag and the optional
underlying cantools database. -/
structure DBCDatabase where
  loaded : Bool
  raw : Option RawDB
/-- DBCDatabase.get_message_by_id (dbc_manager.py lines 63-70): None when
not loaded or db is None, and None on KeyError from the lookup. -/
def DBCDatabase.get_message_by_id (d : DBCDatabase) (can_id : Nat) : Option MsgDef :=
  match d.raw, d.loaded with
  | some r, true => r.getMessageByFrameId can_id
  | _, _ => none
/-- DBCDatabase.decode_message (dbc_manager.py lines 81-100): empty dict when
not loaded, on KeyError from the lookup, or on any exception from decode. -/
def DBCDatabase.decode_message (d : DBCDatabase) (can_id : Nat) (data : List Nat) :
    List (String × ℚ) :=
  match d.raw, d.loaded with
  | some r, true =>
    match r.getMessageByFrameId can_id with
    | none => []
    | some msg =>
      match r.decode msg data with
      | .ok vals => vals
      | .error _ => []
  | _, _ => []
/-- The slice of DBCManager the decoder reads through get_active(). -/
structure DBCManager where
  active : Option DBCDatabase
/-- A decoded signal (signal_decoder.py, class SignalValue). -/
structure SignalValue where
  name : String
  value : ℚ
  unit : String
  raw_value : ℚ
deriving DecidableEq
/-- DecodedMessage.add_signal stores into a dict keyed by signal name:
an existing entry is overwritten in place, a new one appended. -/
def addSignal : List SignalValue → SignalValue → List SignalValue
  | [], s => [s]
  | t :: rest, s => if t.name = s.name then s :: rest else t :: addSignal rest s
/-- A decoded CAN message (signal_decoder.py, class DecodedMessage);
signals holds the dict entries in insertion order. -/
structure DecodedMessage where
  can_id : Nat
  message_name : String
  signals : List SignalValue
deriving DecidableEq
def DecodedMessage.get_signal_count (d : DecodedMessage) : Nat := d.signals.length
/-- SignalDecoder._format_signal_value (signal_decoder.py lines 167-175):
integral floats are shown as ints, other floats rounded to 2 decimals
(Python's round-half-even on floats modelled as rational rounding). -/
def format_signal_value (v : ℚ) : ℚ :=
  if v.den = 1 then v else ((round (v * 100) : ℤ) : ℚ) / 100
/-- The SignalDecoder (signal_decoder.py): holds the DBC manager. -/
structure SignalDecoder where
  dbc_manager : DBCManager
/-- SignalDecoder.decode_message with the default db_name=None
(signal_decoder.py lines 89-151): None when there is no active loaded
database, no message definition for the arbitration ID, the decode yields no
signal values, or decoding raises; otherwise the DecodedMessage built by the
signal loop (unit looked up in the message definition by name). -/
def SignalDecoder.decode_message (dec : SignalDecoder) (m : CANMessage) :
    Option DecodedMessage :=
  match dec.dbc_manager.active with
  | none => none
  | some db =>
    if ¬db.loaded then none
    else
      match db.get_message_by_id m.can_id with
      | none => none
      | some msgDef =>
        match db.decode_message m.can_id m.data with
        | [] => none
        | v :: vals =>
          some ⟨m.can_id, msgDef.name,
            (v :: vals).foldl
              (fun sigs p =>
                addSignal sigs
                  ⟨p.1, format_signal_value p.2,
                   (match msgDef.signals.find? (fun sig => sig.name = p.1) with
                    | some sigDef => sigDef.unit
                    | none => ""),
                   p.2⟩)
              []⟩
/-- SignalValue.format_full, which is its repr (signal_decoder.py 21-25, 42-44). -/
def SignalValue.format_full (s : SignalValue) : String :=
  if s.unit = "" then s.name ++ ": " ++ toString s.value
  else s.name ++ ": " ++ toString s.value ++ " " ++ s.unit
/-- SignalDecoder.get_signal_summary (signal_decoder.py lines 177-205). -/
def SignalDecoder.get_signal_summary (decoded : DecodedMessage) (max_signals : Nat) :
    String :=
  if decoded.signals = [] then ""
  else
    String.intercalate ", "
      ((decoded.signals.take max_signals).map SignalValue.format_full ++
        (if max_signals < decoded.signals.length
         then ["... (+" ++ toString (decoded.signals.length - max_signals) ++ " more)"]
         else []))
/-- A hexadecimal digit as an uppercase character. -/
def hexDigitChar (n : Nat) : Char :=
  if n < 10 then Char.ofNat (48 + n) else Char.ofNat (55 + n)
/-- Hex digits of n, most significant first (fuel recursion on n itself). -/
def hexCharsAux : Nat → Nat → List Char
  | 0, _ => []
  | fuel + 1, n =>
    if n = 0 then [] else hexCharsAux fuel (n / 16) ++ [hexDigitChar (n % 16)]
def hexDigitsOf (n : Nat) : List Char :=
  if n = 0 then ['0'] else hexCharsAux n n
/-- Python format f-string {n:0wX}: uppercase hex, left padded with zeros. -/
def formatHex (n width : Nat) : String :=
  String.mk (List.replicate (width - (hexDigitsOf n).length) '0' ++ hexDigitsOf n)
/-- The data column text: space-joined uppercase hex byte pairs
(virtual_scroll_worker.py line 178). -/
def formatDataBytes (data : List Nat) : String :=
  String.intercalate " " (data.map (fun b => formatHex b 2))
/-- The signal column text of a worker row (virtual_scroll_worker.py lines
183-189): empty without a decoder or when decode_message returns None,
otherwise the 2-signal summary plus the expand indicator. -/
def signalSummaryText (dec : Option SignalDecoder) (m : CANMessage) : String :=
  match dec with
  | none => ""
  | some d =>
    match d.decode_message m with
    | none => ""
    | some decoded =>
      if 0 < decoded.get_signal_count
      then SignalDecoder.get_signal_summary decoded 2 ++ " [...]"
      else SignalDecoder.get_signal_summary decoded 2
/-- The texts of one prepared table row (virtual_scroll_worker.py, class
TableRowData, with the QTableWidgetItem cells reduced to their texts). -/
structure TableRowData where
  indexText : String
  timestampText : String
  channelText : String
  canIdText : String
  directionText : String
  dlcText : String
  dataText : String
  signalText : String
  message_index : Nat
deriving DecidableEq
/-- One iteration of the row loop of _prepare_data_range
(virtual_scroll_worker.py lines 134-199), with the timestamp formatter as a
function parameter. -/
def prepareRowData (fmt : ℚ → String) (dec : Option SignalDecoder) (i : Nat)
    (m : CANMessage) : TableRowData :=
  ⟨toString (i + 1), fmt m.timestamp, toString m.channel,
   "0x" ++ formatHex m.can_id 3, m.direction, toString m.dlc,
   formatDataBytes m.data, signalSummaryText dec m, i⟩
/-- VirtualScrollDataWorker._prepare_data_range (virtual_scroll_worker.py
lines 113-201): empty without messages or formatter, else one row per index
i in range(start_index, min(end_index, len(messages))). -/
def prepare_data_range (msgs : List CANMessage) (fmt : Option (ℚ → String))
    (dec : Option SignalDecoder) (startIndex endIndex : Nat) : List TableRowData :=
  match fmt with
  | none => []
  | some f =>
    if msgs = [] then []
    else
      ((List.range' startIndex ((msgs.take endIndex).drop startIndex).length).zip
          ((msgs.take endIndex).drop startIndex)).map
        (fun p => prepareRowData f dec p.1 p.2)
/-- The whitespace characters removed by Python str.strip() (ASCII range). -/
def isPySpace (c : Char) : Bool :=
  c = ' ' || c = '\t' || c = '\n' || c = '\r' || c = '\x0b' || c = '\x0c'
/-- Python str.strip(): whitespace removed from both ends. -/
def pyStrip (l : List Char) : List Char :=
  ((l.dropWhile isPySpace).reverse.dropWhile isPySpace).reverse
/-- Python text.split(pattern with a single comma): note that splitting the
empty string yields one empty part. -/
def splitOnComma : List Char → List (List Char)
  | [] => [[]]
  | c :: rest =>
    if c = ',' then [] :: splitOnComma rest
    else
      match splitOnComma rest with
      | [] => [[c]]
      | p :: ps => (c :: p) :: ps
/-- A decimal digit character. -/
def isDecDigit (c : Char) : Bool :=
  48 ≤ c.toNat && c.toNat ≤ 57
/-- A hexadecimal digit character (0-9, a-f, A-F). -/
def isHexDigit (c : Char) : Bool :=
  isDecDigit c || (97 ≤ c.toNat && c.toNat ≤ 102) || (65 ≤ c.toNat && c.toNat ≤ 70)
/-- The value of a hexadecimal digit character. -/
def hexDigitValue (c : Char) : Nat :=
  if 48 ≤ c.toNat && c.toNat ≤ 57 then c.toNat - 48
  else if 97 ≤ c.toNat && c.toNat ≤ 102 then c.toNat - 87
  else if 65 ≤ c.toNat && c.toNat ≤ 70 then c.toNat - 55
  else 0
/-- Digit run of Python int(text, 16): hexadecimal digits with single
underscores allowed only between digits (an underscore must be followed by a
digit, which the next step then consumes). -/
def pyHexDigitsGo : List Char → Nat → Option Nat
  | [], acc => some acc
  | c :: rest, acc =>
    if c = '_' then
      match rest with
      | [] => none
      | d :: _ => if isHexDigit d then pyHexDigitsGo rest acc else none
    else if isHexDigit c then pyHexDigitsGo rest (16 * acc + hexDigitValue c) else none
/-- A nonempty digit run that must not start with an underscore. -/
def pyHexDigits (l : List Char) : Option Nat :=
  match l with
  | [] => none
  | c :: _ => if c = '_' then none else pyHexDigitsGo l 0
/-- Digit run right after a 0x/0X base marker, where Python additionally
allows one leading underscore. -/
def pyHexDigitsAfterBase (l : List Char) : Option Nat :=
  match l with
  | [] => none
  | c :: rest => if c = '_' then pyHexDigits rest else pyHexDigits l
/-- Magnitude part of Python int(text, 16): optional 0x/0X base marker
followed by the digit run. -/
def pyHexBody (l : List Char) : Option Nat :=
  match l with
  | a :: c :: rest =>
    if a = '0' ∧ (c = 'x' ∨ c = 'X') then pyHexDigitsAfterBase rest else pyHexDigits l
  | _ => pyHexDigits l
/-- Models Python int(text, 16) on an already-stripped string: an optional
sign, an optional 0x/0X base marker, then hexadecimal digits with single
underscores between digits; everything else raises ValueError (none). -/
def pyIntHex (s : List Char) : Option Int :=
  match s with
  | [] => none
  | c :: rest =>
    if c = '+' then (pyHexBody rest).map Int.ofNat
    else if c = '-' then (pyHexBody rest).map (fun v => -Int.ofNat v)
    else (pyHexBody (c :: rest)).map Int.ofNat
/-- One iteration of the parse_can_ids loop (filter_dialog.py lines 234-249):
strip the part, skip it when empty, then both the 0x branch and the default
branch call int(part, 16); a ValueError skips just this entry. -/
def parseCanIdsStep (ids : Finset Int) (part : List Char) : Finset Int :=
  if pyStrip part = [] then ids
  else
    match (if (pyStrip part).take 2 = ['0', 'x'] ∨ (pyStrip part).take 2 = ['0', 'X']
           then pyIntHex (pyStrip part) else pyIntHex (pyStrip part)) with
    | some canId => insert canId ids
    | none => ids
/-- FilterDialog.parse_can_ids (filter_dialog.py lines 222-251). -/
def parse_can_ids (text : List Char) : Finset Int :=
  (splitOnComma text).foldl parseCanIdsStep ∅
/-- The value an individual comma-separated entry contributes, if any. -/
def entryValue (part : List Char) : Option Int :=
  if pyStrip part = [] then none else pyIntHex (pyStrip part)
/-- Base-16 value of a digit string, most significant digit first. -/
def hexNatOfDigits (l : List Char) : Nat :=
  l.foldl (fun a c => 16 * a + hexDigitValue c) 0
theorem slideForwardCore_windowStart (n : Nat) (s : SlidingWindow) (a b : Nat) :
    (slideForwardCore n s a b).windowStart = s.windowStart + rowsToAppend n s := rfl
theorem slideForwardCore_rowCount (n : Nat) (s : SlidingWindow) (a b : Nat) :
    (slideForwardCore n s a b).rowCount = (s.rowCount - rowsToAppend n s) + rowsToAppend n s := rfl
theorem slideBackwardCore_windowStart (s : SlidingWindow) (a b : Nat) :
    (slideBackwardCore s a b).windowStart = s.windowStart - rowsToPrepend s := rfl
theorem slideBackwardCore_rowCount (s : SlidingWindow) (a b : Nat) :
    (slideBackwardCore s a b).rowCount = (s.rowCount - rowsToPrepend s) + rowsToPrepend s := rfl
theorem initSlidingWindow_inv (n : Nat) : WindowInv n (initSlidingWindow n) := by
  refine ⟨le_refl 0, ?_, rfl⟩
  have h : min windowSize n ≤ n := Nat.min_le_right _ _
  simp only [initSlidingWindow]
  omega
theorem slideWindowForward_inv (n : Nat) (s : SlidingWindow) (a b : Nat)
    (h : WindowInv n s) : WindowInv n (slideWindowForward n s a b) := by
  obtain ⟨h0, h1, h2⟩ := h
  unfold slideWindowForward
  split
  · exact ⟨h0, h1, h2⟩
  split
  · exact ⟨h0, h1, h2⟩
  rename_i hend
  refine ⟨?_, ?_, ?_⟩ <;>
    simp only [slideForwardCore_windowStart, slideForwardCore_rowCount, rowsToAppend] <;>
    simp only [windowSize, appendBatchSize] at * <;>
    omega
theorem slideWindowBackward_inv (n : Nat) (s : SlidingWindow) (a b : Nat)
    (h : WindowInv n s) : WindowInv n (slideWindowBackward n s a b) := by
  obtain ⟨h0, h1, h2⟩ := h
  unfold slideWindowBackward
  split
  · exact ⟨h0, h1, h2⟩
  split
  · exact ⟨h0, h1, h2⟩
  rename_i hstart
  refine ⟨?_, ?_, ?_⟩ <;>
    simp only [slideBackwardCore_windowStart, slideBackwardCore_rowCount, rowsToPrepend] <;>
    simp only [windowSize, appendBatchSize] at * <;>
    omega
theorem runSlides_inv (n : Nat) (ops : List SlideOp) (s : SlidingWindow)
    (h : WindowInv n s) : WindowInv n (runSlides n s ops) := by
  induction ops generalizing s with
  | nil => exact h
  | cons op rest ih =>
    cases op with
    | forward a b => exact ih _ (slideWindowForward_inv n s a b h)
    | backward a b => exact ih _ (slideWindowBackward_inv n s a b h)
/-- C1: Window invariant. For every display-sequence length n and every
sequence of forward/backward slides starting from a freshly initialized
sliding window, the window start stays non-negative and window start plus
the number of materialized rows never exceeds n. -/
theorem window_invariant_after_slides (n : Nat) (ops : List SlideOp) :
    0 ≤ (runSlides n (initSlidingWindow n) ops).windowStart ∧
    (runSlides n (initSlidingWindow n) ops).windowStart
      + (runSlides n (initSlidingWindow n) ops).rowCount ≤ n := by
  have h := runSlides_inv n ops (initSlidingWindow n) (initSlidingWindow_inv n)
  exact ⟨h.1, h.2.1⟩
/-- C6: No-op slide idempotence. For every window state, sliding forward when
the window already ends at the last display-sequence index, or backward when
the window start is already 0, returns the state completely unchanged (so the
window start and the materialized content are untouched and nothing is
raised; out-of-bounds requests are silently clamped to no-ops). -/
theorem noop_slide_unchanged (n : Nat) (s : SlidingWindow) (a b : Nat) :
    (s.windowStart + s.rowCount = n → slideWindowForward n s a b = s) ∧
    (s.windowStart = 0 → slideWindowBackward n s a b = s) := by
  constructor
  · intro h
    unfold slideWindowForward
    split
    · rfl
    split
    · rfl
    · rename_i hend
      exact absurd (le_of_eq h.symm) hend
  · intro h
    unfold slideWindowBackward
    split
    · rfl
    split
    · rfl
    · rename_i hstart
      exact absurd (le_of_eq h) hstart
theorem noop_slide_unchanged_witness :
    slideWindowForward 5000 ⟨0, 5000, 7, false⟩ 10 10 = ⟨0, 5000, 7, false⟩ ∧
    slideWindowBackward 5000 ⟨0, 5000, 7, false⟩ 10 10 = ⟨0, 5000, 7, false⟩ := by
  have h := noop_slide_unchanged 5000 ⟨0, 5000, 7, false⟩ 10 10
  exact ⟨h.1 (by decide), h.2 rfl⟩
/-- C7: Single slide in flight. Whenever the _is_loading_more flag is set, a
scroll event (_check_bottom_and_load_more) and both slide operations return
the state unchanged: nothing is modified and nothing is queued, so a second
slide can never start while one is in flight. -/
theorem in_flight_requests_ignored (n : Nat) (s : SlidingWindow) (a b : Nat)
    (h : s.isLoadingMore = true) :
    checkBottomAndLoadMore n s a b = s ∧
    slideWindowForward n s a b = s ∧
    slideWindowBackward n s a b = s := by
  refine ⟨?_, ?_, ?_⟩ <;>
    simp [checkBottomAndLoadMore, slideWindowForward, slideWindowBackward, h]
theorem in_flight_requests_ignored_witness :
    checkBottomAndLoadMore 20000 ⟨100, 15000, 50, true⟩ 100 100 = ⟨100, 15000, 50, true⟩ ∧
    slideWindowForward 20000 ⟨100, 15000, 50, true⟩ 100 100 = ⟨100, 15000, 50, true⟩ ∧
    slideWindowBackward 20000 ⟨100, 15000, 50, true⟩ 100 100 = ⟨100, 15000, 50, true⟩ :=
  in_flight_requests_ignored 20000 ⟨100, 15000, 50, true⟩ 100 100 rfl
/-- C5: Filter composition. matches() accepts a frame iff every individually
enabled sub-criterion accepts it (time and length ranges inclusive at both
ends, disabled criteria always passing); with all four criteria disabled
every frame passes. -/
theorem matches_iff_enabled_criteria (f : MessageFilter) (m : CANMessage) :
    (f.matches m = true ↔ passesEnabledCriteria f m) ∧
    (f.filter_by_can_id = false → f.filter_by_direction = false →
      f.filter_by_time = false → f.filter_by_dlc = false → f.matches m = true) := by
  have hmain : f.matches m = true ↔ passesEnabledCriteria f m := by
    unfold MessageFilter.matches passesEnabledCriteria
    constructor
    · intro h
      split_ifs at h with h1 h2 h3 h4 <;> try simp at h
      refine ⟨?_, ?_, ?_, ?_⟩
      · intro hen
        by_cases hmode : f.can_id_mode = "include"
        · rw [if_pos hmode]
          by_cases hmem : m.can_id ∈ f.can_id_list
          · exact hmem
          · exact absurd ⟨hen, Or.inl ⟨hmode, hmem⟩⟩ h1
        · rw [if_neg hmode]
          intro hmem
          exact h1 ⟨hen, Or.inr ⟨hmode, hmem⟩⟩
      · intro hen
        constructor
        · intro hrx
          by_cases hs : f.show_rx
          · exact hs
          · exact absurd ⟨hen, Or.inl ⟨hrx, hs⟩⟩ h2
        · intro htx
          by_cases hs : f.show_tx
          · exact hs
          · exact absurd ⟨hen, Or.inr ⟨htx, hs⟩⟩ h2
      · intro hen
        constructor
        · by_contra hlt
          exact h3 ⟨hen, Or.inl (lt_of_not_le hlt)⟩
        · by_contra hlt
          exact h3 ⟨hen, Or.inr (lt_of_not_le hlt)⟩
      · intro hen
        constructor
        · by_contra hlt
          exact h4 ⟨hen, Or.inl (lt_of_not_le hlt)⟩
        · by_contra hlt
          exact h4 ⟨hen, Or.inr (lt_of_not_le hlt)⟩
    · intro hp
      obtain ⟨p1, p2, p3, p4⟩ := hp
      have h1 : ¬(f.filter_by_can_id ∧ ((f.can_id_mode = "include" ∧ m.can_id ∉ f.can_id_list) ∨
          (f.can_id_mode ≠ "include" ∧ m.can_id ∈ f.can_id_list))) := by
        rintro ⟨hen, ⟨hmode, hmem⟩ | ⟨hmode, hmem⟩⟩
        · have hmem2 : m.can_id ∈ f.can_id_list := by
            have := p1 hen
            rwa [if_pos hmode] at this
          exact hmem hmem2
        · have hmem2 : m.can_id ∉ f.can_id_list := by
            have := p1 hen
            rwa [if_neg hmode] at this
          exact hmem2 hmem
      have h2 : ¬(f.filter_by_direction ∧ ((m.direction = "Rx" ∧ ¬f.show_rx) ∨
          (m.direction = "Tx" ∧ ¬f.show_tx))) := by
        rintro ⟨hen, ⟨hdir, hs⟩ | ⟨hdir, hs⟩⟩
        · exact hs ((p2 hen).1 hdir)
        · exact hs ((p2 hen).2 hdir)
      have h3 : ¬(f.filter_by_time ∧ (m.timestamp < f.time_start ∨ f.time_end < m.timestamp)) := by
        rintro ⟨hen, hlt | hlt⟩
        · exact absurd hlt (not_lt.mpr (p3 hen).1)
        · exact absurd hlt (not_lt.mpr (p3 hen).2)
      have h4 : ¬(f.filter_by_dlc ∧ (m.dlc < f.dlc_min ∨ f.dlc_max < m.dlc)) := by
        rintro ⟨hen, hlt | hlt⟩
        · exact absurd hlt (not_lt.mpr (p4 hen).1)
        · exact absurd hlt (not_lt.mpr (p4 hen).2)
      rw [if_neg h1, if_neg h2, if_neg h3, if_neg h4]
  refine ⟨hmain, fun ha hb hc hd => ?_⟩
  rw [hmain]
  refine ⟨?_, ?_, ?_, ?_⟩ <;> intro h <;> simp_all
theorem matches_iff_enabled_criteria_witness :
    (MessageFilter.mk false ∅ "include" false true true false 0 0 false 0 8).matches
      ⟨(5 : ℚ), 291, "Rx", [1, 2, 3], 1⟩ = true := by
  have h := matches_iff_enabled_criteria
    (MessageFilter.mk false ∅ "include" false true true false 0 0 false 0 8)
    ⟨(5 : ℚ), 291, "Rx", [1, 2, 3], 1⟩
  exact h.2 rfl rfl rfl rfl
/-- C2: Load strategy threshold. A display count of SLIDING_THRESHOLD - 1
(9,999) selects Full Batch and SLIDING_THRESHOLD (10,000) selects Sliding
Window; for every filtered message list whose display count reaches the
threshold, the sliding window initializes with window start 0 and
materializes exactly min(15000, display count) rows. -/
theorem strategy_threshold :
    selectStrategy (slidingThreshold - 1) = LoadStrategy.fullBatch ∧
    slidingThreshold - 1 = 9999 ∧
    selectStrategy slidingThreshold = LoadStrategy.slidingWindow ∧
    slidingThreshold = 10000 ∧
    ∀ (msgs : List CANMessage) (f : Option MessageFilter),
      slidingThreshold ≤ (pendingMessages msgs f).length →
        selectStrategy (pendingMessages msgs f).length = LoadStrategy.slidingWindow ∧
        (initSlidingWindow (pendingMessages msgs f).length).windowStart = 0 ∧
        (initSlidingWindow (pendingMessages msgs f).length).rowCount
          = min 15000 (pendingMessages msgs f).length := by
  refine ⟨by decide, by decide, by decide, by decide, fun msgs f h => ⟨?_, rfl, rfl⟩⟩
  unfold selectStrategy
  rw [if_pos h]
theorem strategy_threshold_witness :
    selectStrategy (pendingMessages (List.replicate 10000 ⟨0, 0, "Rx", [], 1⟩) none).length
      = LoadStrategy.slidingWindow ∧
    (initSlidingWindow (pendingMessages (List.replicate 10000 ⟨0, 0, "Rx", [], 1⟩) none).length).windowStart = 0 ∧
    (initSlidingWindow (pendingMessages (List.replicate 10000 ⟨0, 0, "Rx", [], 1⟩) none).length).rowCount
      = min 15000 (pendingMessages (List.replicate 10000 ⟨0, 0, "Rx", [], 1⟩) none).length :=
  strategy_threshold.2.2.2.2 (List.replicate 10000 ⟨0, 0, "Rx", [], 1⟩) none
    (by
      show slidingThreshold ≤ (List.replicate 10000 (⟨0, 0, "Rx", [], 1⟩ : CANMessage)).length
      rw [List.length_replicate]
      exact Nat.le_refl 10000)
/-- C4: Position-translation round trip. For every display count n > 0 and
logical index i in [0, n), translating i to a scrollbar fraction and back
yields a logical index within plus or minus 1 of i. -/
theorem position_round_trip (n i : Nat) (hn : 0 < n) (hi : i < n) :
    (logicalIndex (scrollbarFraction i n) n - i).natAbs ≤ 1 := by
  unfold logicalIndex scrollbarFraction
  rcases Nat.lt_or_ge n 2 with h2 | h2
  · have hn1 : n = 1 := by omega
    have hi0 : i = 0 := by omega
    subst hn1; subst hi0
    norm_num
  · have hdmax : max 1 (n - 1) = n - 1 := by omega
    rw [hdmax]
    have hdpos : (0 : ℚ) < ((n - 1 : Nat) : ℚ) := by
      exact_mod_cast (by omega : 0 < n - 1)
    have hq1 : (i : ℚ) ≤ (i : ℚ) / ((n - 1 : Nat) : ℚ) * n := by
      rw [div_mul_eq_mul_div, le_div_iff hdpos]
      have hdn : ((n - 1 : Nat) : ℚ) ≤ (n : ℚ) := by
        exact_mod_cast Nat.sub_le n 1
      have hipos : (0 : ℚ) ≤ (i : ℚ) := by positivity
      nlinarith
    have hq2 : (i : ℚ) / ((n - 1 : Nat) : ℚ) * n ≤ (i : ℚ) + 1 := by
      rw [div_mul_eq_mul_div, div_le_iff hdpos]
      have hin : (i : ℚ) + 1 ≤ (n : ℚ) := by exact_mod_cast hi
      have hd : ((n - 1 : Nat) : ℚ) = (n : ℚ) - 1 := by
        rw [Nat.cast_sub (by omega : 1 ≤ n)]
        norm_num
      nlinarith
    have hfl1 : (i : Int) ≤ Int.floor ((i : ℚ) / ((n - 1 : Nat) : ℚ) * n) := by
      rw [Int.le_floor]
      exact_mod_cast hq1
    have hfl2 : Int.floor ((i : ℚ) / ((n - 1 : Nat) : ℚ) * n) ≤ (i : Int) + 1 := by
      have h := Int.floor_le_floor hq2
      have he : Int.floor ((i : ℚ) + 1) = (i : Int) + 1 := by
        rw [Int.floor_add_one, Int.floor_natCast]
      omega
    omega
theorem position_round_trip_witness :
    (logicalIndex (scrollbarFraction 3 10) 10 - 3).natAbs ≤ 1 :=
  position_round_trip 10 3 (by decide) (by decide)
theorem slideForwardCore_scrollValue (n : Nat) (s : SlidingWindow) (a b : Nat) :
    (slideForwardCore n s a b).scrollValue =
      repositionScroll s
        (clampViewingRow ((s.windowStart + currentViewingRow s a)
            - (s.windowStart + rowsToAppend n s))
          ((s.rowCount - rowsToAppend n s) + rowsToAppend n s))
        ((s.rowCount - rowsToAppend n s) + rowsToAppend n s) b := rfl
theorem slideBackwardCore_scrollValue (s : SlidingWindow) (a b : Nat) :
    (slideBackwardCore s a b).scrollValue =
      repositionScroll s
        (clampViewingRow ((s.windowStart + currentViewingRow s a)
            - (s.windowStart - rowsToPrepend s))
          ((s.rowCount - rowsToPrepend s) + rowsToPrepend s))
        ((s.rowCount - rowsToPrepend s) + rowsToPrepend s) b := rfl
theorem currentViewingRow_le (s : SlidingWindow) (oldMax : Nat)
    (h : s.scrollValue ≤ oldMax) : currentViewingRow s oldMax ≤ s.rowCount := by
  unfold currentViewingRow
  split
  · rename_i hpos
    calc s.scrollValue * s.rowCount / oldMax
        ≤ oldMax * s.rowCount / oldMax :=
          Nat.div_le_div_right (Nat.mul_le_mul_right _ h)
      _ = s.rowCount := Nat.mul_div_cancel_left _ hpos
  · exact Nat.zero_le _
theorem repositionScroll_eq (s : SlidingWindow) (nvr R M : Nat) (hM : 0 < M)
    (hR : 0 < R) (hnvr : nvr ≤ R) : repositionScroll s nvr R M = nvr * M / R := by
  unfold repositionScroll
  rw [if_pos ⟨hM, hR⟩]
  have hle : nvr * M / R ≤ M := by
    calc nvr * M / R ≤ R * M / R := Nat.div_le_div_right (Nat.mul_le_mul_right _ hnvr)
      _ = M := Nat.mul_div_cancel_left _ hR
  exact Nat.min_eq_left hle
/-- C3: Scroll-anchor preservation. For every actual slide (no slide in
flight, scrollbar maxima positive, the materialized window at least one
append batch large as it always is in sliding-window mode, scrollbar value
within its maximum), the scrollbar ends at the fraction corresponding to the
previously viewed logical index's new relative row position when that index
survives in the new window, and at the near-edge 25% (forward) or 75%
(backward) row position when it was evicted; no error is raised (the
operations are total). -/
theorem scroll_anchor_preserved (n : Nat) (s : SlidingWindow) (oldMax newMax : Nat)
    (hflag : s.isLoadingMore = false) (hrc : appendBatchSize ≤ s.rowCount)
    (hval : s.scrollValue ≤ oldMax) (hom : 0 < oldMax) (hnm : 0 < newMax) :
    (s.windowStart + s.rowCount < n → anchorSpecForward n s oldMax newMax) ∧
    (0 < s.windowStart → anchorSpecBackward n s oldMax newMax) := by
  have hvr : currentViewingRow s oldMax ≤ s.rowCount := currentViewingRow_le s oldMax hval
  have hrcpos : 0 < s.rowCount := by
    have : 0 < appendBatchSize := by decide
    omega
  constructor
  · intro hlt
    have hfwd : slideWindowForward n s oldMax newMax = slideForwardCore n s oldMax newMax := by
      unfold slideWindowForward
      rw [if_neg (by simp [hflag]), if_neg (by omega)]
    have hk1 : 1 ≤ rowsToAppend n s := by
      unfold rowsToAppend appendBatchSize
      omega
    have hk2 : rowsToAppend n s ≤ s.rowCount := by
      have := Nat.min_le_left appendBatchSize ((n : Int) - (s.windowStart + s.rowCount)).toNat
      unfold rowsToAppend
      omega
    have hRC : (s.rowCount - rowsToAppend n s) + rowsToAppend n s = s.rowCount := by omega
    constructor
    · intro hin
      rw [hfwd, slideForwardCore_scrollValue, hRC]
      rw [clampViewingRow, if_neg (by omega), if_neg (by omega)]
      exact repositionScroll_eq s _ _ _ hnm hrcpos (by omega)
    · intro hout
      rw [hfwd, slideForwardCore_scrollValue, hRC]
      rw [clampViewingRow, if_pos (by omega)]
      exact repositionScroll_eq s _ _ _ hnm hrcpos (Nat.le_trans (Nat.div_le_self _ _) (le_refl _))
  · intro hstart
    have hbwd : slideWindowBackward n s oldMax newMax = slideBackwardCore s oldMax newMax := by
      unfold slideWindowBackward
      rw [if_neg (by simp [hflag]), if_neg (by omega)]
    have hk1 : 1 ≤ rowsToPrepend s := by
      unfold rowsToPrepend appendBatchSize
      omega
    have hk2 : rowsToPrepend s ≤ s.rowCount := by
      have := Nat.min_le_left appendBatchSize s.windowStart.toNat
      unfold rowsToPrepend
      omega
    have hRC : (s.rowCount - rowsToPrepend s) + rowsToPrepend s = s.rowCount := by omega
    constructor
    · intro hin
      rw [hbwd, slideBackwardCore_scrollValue, hRC]
      rw [clampViewingRow, if_neg (by omega), if_neg (by omega)]
      exact repositionScroll_eq s _ _ _ hnm hrcpos (by omega)
    · intro hout
      rw [hbwd, slideBackwardCore_scrollValue, hRC]
      rw [clampViewingRow, if_neg (by omega), if_pos (by omega)]
      refine repositionScroll_eq s _ _ _ hnm hrcpos ?_
      omega
theorem scroll_anchor_preserved_witness :
    (((⟨2000, 15000, 96, false⟩ : SlidingWindow).windowStart
        + (⟨2000, 15000, 96, false⟩ : SlidingWindow).rowCount < 100000 →
      anchorSpecForward 100000 ⟨2000, 15000, 96, false⟩ 100 120) ∧
     (0 < (⟨2000, 15000, 96, false⟩ : SlidingWindow).windowStart →
      anchorSpecBackward 100000 ⟨2000, 15000, 96, false⟩ 100 120)) :=
  scroll_anchor_preserved 100000 ⟨2000, 15000, 96, false⟩ 100 120
    rfl (by decide) (by decide) (by decide) (by decide)
/-- C8: Decode-miss handling. For every frame whose arbitration ID has no
definition in the decoder's loaded database (KeyError on lookup), or whose
decode raises, decode_message returns None instead of raising; the row
materializer still produces the row, with an empty signal-summary text, and
the batch keeps one row per requested index (it is not aborted). -/
theorem decode_miss_empty_summary (dec : SignalDecoder) (db : DBCDatabase)
    (r : RawDB) (m : CANMessage) (fmt : ℚ → String) (i : Nat)
    (hdb : dec.dbc_manager.active = some db) (hl : db.loaded = true)
    (hr : db.raw = some r)
    (h : r.getMessageByFrameId m.can_id = none ∨
         ∃ msgDef e, r.getMessageByFrameId m.can_id = some msgDef ∧
           r.decode msgDef m.data = Except.error e) :
    dec.decode_message m = none ∧
    (prepareRowData fmt (some dec) i m).signalText = "" ∧
    ∀ (msgs : List CANMessage) (startIndex endIndex : Nat),
      (prepare_data_range msgs (some fmt) (some dec) startIndex endIndex).length
        = ((msgs.take endIndex).drop startIndex).length := by
  obtain ⟨l, raw⟩ := db
  simp only at hl hr
  subst hl
  subst hr
  have hnone : dec.decode_message m = none := by
    rcases h with hmiss | ⟨msgDef, e, hsome, herr⟩
    · simp [SignalDecoder.decode_message, hdb, DBCDatabase.get_message_by_id, hmiss]
    · simp [SignalDecoder.decode_message, hdb, DBCDatabase.get_message_by_id,
        DBCDatabase.decode_message, hsome, herr]
  refine ⟨hnone, ?_, ?_⟩
  · simp [prepareRowData, signalSummaryText, hnone]
  · intro msgs startIndex endIndex
    by_cases hm : msgs = []
    · subst hm
      simp [prepare_data_range]
    · simp only [prepare_data_range]
      rw [if_neg hm, List.length_map, List.length_zip, List.length_range']
      exact Nat.min_self _
theorem decode_miss_empty_summary_witness :
    (SignalDecoder.mk (DBCManager.mk (some (DBCDatabase.mk true
        (some (RawDB.mk (fun _ => none) (fun _ _ => Except.ok []))))))).decode_message
      ⟨0, 291, "Rx", [1, 2], 1⟩ = none ∧
    (prepareRowData (fun _ => "t")
        (some (SignalDecoder.mk (DBCManager.mk (some (DBCDatabase.mk true
          (some (RawDB.mk (fun _ => none) (fun _ _ => Except.ok [])))))))) 0
        ⟨0, 291, "Rx", [1, 2], 1⟩).signalText = "" ∧
    ∀ (msgs : List CANMessage) (startIndex endIndex : Nat),
      (prepare_data_range msgs (some (fun _ => "t"))
          (some (SignalDecoder.mk (DBCManager.mk (some (DBCDatabase.mk true
            (some (RawDB.mk (fun _ => none) (fun _ _ => Except.ok []))))))))
          startIndex endIndex).length
        = ((msgs.take endIndex).drop startIndex).length :=
  decode_miss_empty_summary
    (SignalDecoder.mk (DBCManager.mk (some (DBCDatabase.mk true
      (some (RawDB.mk (fun _ => none) (fun _ _ => Except.ok [])))))))
    (DBCDatabase.mk true (some (RawDB.mk (fun _ => none) (fun _ _ => Except.ok []))))
    (RawDB.mk (fun _ => none) (fun _ _ => Except.ok []))
    ⟨0, 291, "Rx", [1, 2], 1⟩ (fun _ => "t") 0 rfl rfl rfl (Or.inl rfl)
theorem splitOnComma_ne_nil (l : List Char) : splitOnComma l ≠ [] := by
  induction l with
  | nil => simp [splitOnComma]
  | cons c rest ih =>
    unfold splitOnComma
    split
    · simp
    · rcases h : splitOnComma rest with _ | ⟨p, ps⟩
      · exact absurd h ih
      · simp [h]
theorem splitOnComma_append (s₁ s₂ : List Char) :
    splitOnComma (s₁ ++ ',' :: s₂) = splitOnComma s₁ ++ splitOnComma s₂ := by
  induction s₁ with
  | nil => simp [splitOnComma]
  | cons c rest ih =>
    by_cases hc : c = ','
    · subst hc
      simp [splitOnComma, ih]
    · have hl : (c :: rest) ++ ',' :: s₂ = c :: (rest ++ ',' :: s₂) := rfl
      rw [hl]
      simp only [splitOnComma, if_neg hc, ih]
      rcases h : splitOnComma rest with _ | ⟨p, ps⟩
      · exact absurd h (splitOnComma_ne_nil rest)
      · simp
theorem parseCanIdsStep_eq (ids : Finset Int) (part : List Char) :
    parseCanIdsStep ids part =
      match entryValue part with
      | some v => insert v ids
      | none => ids := by
  unfold parseCanIdsStep entryValue
  rw [ite_self]
  by_cases h : pyStrip part = [] <;> simp [h]
theorem foldl_parseCanIdsStep (l : List (List Char)) (init : Finset Int) :
    l.foldl parseCanIdsStep init = init ∪ (l.filterMap entryValue).toFinset := by
  induction l generalizing init with
  | nil => simp
  | cons part rest ih =>
    rw [List.foldl_cons, ih, parseCanIdsStep_eq, List.filterMap_cons]
    cases h : entryValue part with
    | none => simp [h]
    | some v =>
      simp only [h, List.toFinset_cons]
      rw [Finset.insert_union, Finset.union_insert]
theorem parse_can_ids_eq (text : List Char) :
    parse_can_ids text = ((splitOnComma text).filterMap entryValue).toFinset := by
  rw [parse_can_ids, foldl_parseCanIdsStep, Finset.empty_union]
theorem entryValue_eq_some (part : List Char) (v : Int) :
    entryValue part = some v ↔ pyStrip part ≠ [] ∧ pyIntHex (pyStrip part) = some v := by
  unfold entryValue
  by_cases h : pyStrip part = [] <;> simp [h]
/-- C9: Partial success of ID-text parsing. The returned set contains exactly
the values of the individually parseable comma-separated entries (an entry
that fails int(_, 16) is skipped alone), and parsing distributes over comma
concatenation: one malformed entry never discards the rest of the input. -/
theorem parse_ids_partial_success (text : List Char) :
    (∀ v : Int, v ∈ parse_can_ids text ↔
      ∃ part ∈ splitOnComma text,
        pyStrip part ≠ [] ∧ pyIntHex (pyStrip part) = some v) ∧
    ∀ s₁ s₂ : List Char,
      parse_can_ids (s₁ ++ ',' :: s₂) = parse_can_ids s₁ ∪ parse_can_ids s₂ := by
  constructor
  · intro v
    rw [parse_can_ids_eq, List.mem_toFinset, List.mem_filterMap]
    constructor
    · rintro ⟨part, hp, he⟩
      exact ⟨part, hp, (entryValue_eq_some part v).mp he⟩
    · rintro ⟨part, hp, hne, hv⟩
      exact ⟨part, hp, (entryValue_eq_some part v).mpr ⟨hne, hv⟩⟩
  · intro s₁ s₂
    rw [parse_can_ids_eq, parse_can_ids_eq, parse_can_ids_eq, splitOnComma_append,
      List.filterMap_append, List.toFinset_append]
theorem pyHexDigitsGo_decimal (l : List Char) (acc : Nat)
    (h : ∀ c ∈ l, isDecDigit c = true) :
    pyHexDigitsGo l acc = some (l.foldl (fun a c => 16 * a + hexDigitValue c) acc) := by
  induction l generalizing acc with
  | nil => rfl
  | cons c rest ih =>
    have hc : isDecDigit c = true := h c (List.mem_cons_self c rest)
    have hu : ¬(c = '_') := by
      intro he
      subst he
      exact absurd hc (by decide)
    have hhex : isHexDigit c = true := by
      unfold isHexDigit
      rw [hc]
      rfl
    unfold pyHexDigitsGo
    rw [if_neg hu, if_pos hhex, List.foldl_cons]
    exact ih _ (fun d hd => h d (List.mem_cons_of_mem c hd))
/-- C10: Hexadecimal-by-default parsing. Every nonempty string of decimal
digits is accepted by the int(_, 16) model and read in base 16 — so the
entry 10 parses to the CAN ID 16, and a decimal reading (10) is impossible. -/
theorem hex_default_parsing :
    (∀ s : List Char, s ≠ [] → (∀ c ∈ s, isDecDigit c = true) →
      pyIntHex s = some ((hexNatOfDigits s : Nat) : Int)) ∧
    parse_can_ids ['1', '0'] = {16} ∧
    parse_can_ids ['1', '0'] ≠ {10} := by
  refine ⟨?_, by decide, by decide⟩
  intro s hne hdig
  have hbody : pyHexBody s = some (hexNatOfDigits s) := by
    have hdigits : pyHexDigits s = some (hexNatOfDigits s) := by
      rcases s with _ | ⟨c, rest⟩
      · exact absurd rfl hne
      · have hc : isDecDigit c = true := hdig c (List.mem_cons_self c rest)
        have hu : ¬(c = '_') := by
          intro he
          subst he
          exact absurd hc (by decide)
        simp only [pyHexDigits, if_neg hu]
        exact pyHexDigitsGo_decimal _ 0 hdig
    rcases s with _ | ⟨a, _ | ⟨c2, rest2⟩⟩
    · exact absurd rfl hne
    · exact hdigits
    · have hc2 : isDecDigit c2 = true := hdig c2 (by simp)
      have hnx : ¬(a = '0' ∧ (c2 = 'x' ∨ c2 = 'X')) := by
        rintro ⟨_, hx | hx⟩ <;> (subst hx; exact absurd hc2 (by decide))
      simp only [pyHexBody, if_neg hnx]
      exact hdigits
  rcases s with _ | ⟨c, rest⟩
  · exact absurd rfl hne
  · have hc : isDecDigit c = true := hdig c (List.mem_cons_self c rest)
    have hplus : ¬(c = '+') := by
      intro he
      subst he
      exact absurd hc (by decide)
    have hminus : ¬(c = '-') := by
      intro he
      subst he
      exact absurd hc (by decide)
    simp only [pyIntHex, if_neg hplus, if_neg hminus, hbody, Option.map_some']
    rfl
theorem hex_default_parsing_witness :
    pyIntHex ['1', '0'] = some ((hexNatOfDigits ['1', '0'] : Nat) : Int) :=
  hex_default_parsing.1 ['1', '0'] (by decide) (by decide)
end CanAnalyzer
